import Mathlib

set_option maxRecDepth 40000

/-!
Verification of the MicroAI-Paygate gateway (Go) against its specification.

The Go source is shallowly embedded: byte strings are `List Nat` (each entry a
byte value `< 256`), machine words are `Nat` reduced mod `2^32` where the Go
code computes on `uint32`, and every stateful handler is an explicit function
from its inputs (headers, cache contents, clock, environment) to its response.
-/

/-! ## Big-endian byte encoding of naturals -/

/-- Big-endian encoding of `m` into exactly `d` bytes (Go `binary.BigEndian`
style): most significant byte first, truncating above `256^d`. -/
def beBytes : Nat → Nat → List Nat
  | 0, _ => []
  | d + 1, m => beBytes d (m / 256) ++ [m % 256]

/-- Value of a big-endian byte list. -/
def beVal (l : List Nat) : Nat := l.foldl (fun a b => a * 256 + b) 0

/-! ## Lowercase hexadecimal encoding (Go `hex.EncodeToString`) -/

/-- One lowercase hex digit for a value `< 16`. -/
def hexDigitChar (n : Nat) : Char :=
  match n with
  | 0 => '0' | 1 => '1' | 2 => '2' | 3 => '3'
  | 4 => '4' | 5 => '5' | 6 => '6' | 7 => '7'
  | 8 => '8' | 9 => '9' | 10 => 'a' | 11 => 'b'
  | 12 => 'c' | 13 => 'd' | 14 => 'e' | _ => 'f'

/-- The two hex digits of a byte, high nibble first. -/
def hexByte (b : Nat) : List Char := [hexDigitChar (b / 16 % 16), hexDigitChar (b % 16)]

/-- Hex encoding of a byte list as a character list, as Go's
`hex.EncodeToString` produces (lowercase, two digits per byte). -/
def hexChars (l : List Nat) : List Char := l.flatMap hexByte

/-! ## SHA-256 (Go `crypto/sha256`), on `Nat` reduced mod `2^32` -/

/-- The `uint32` modulus. -/
def w32 : Nat := 4294967296

/-- Right rotation of a 32-bit word by `n` bits. -/
def rotr32 (n x : Nat) : Nat := ((x / 2 ^ n) + (x % 2 ^ n) * 2 ^ (32 - n)) % w32

/-- Logical right shift. -/
def shr32 (n x : Nat) : Nat := x / 2 ^ n

/-- Bitwise complement of a 32-bit word. -/
def not32 (x : Nat) : Nat := Nat.xor x (w32 - 1)

/-- SHA-256 small sigma 0. -/
def smallSig0 (x : Nat) : Nat := Nat.xor (Nat.xor (rotr32 7 x) (rotr32 18 x)) (shr32 3 x)

/-- SHA-256 small sigma 1. -/
def smallSig1 (x : Nat) : Nat := Nat.xor (Nat.xor (rotr32 17 x) (rotr32 19 x)) (shr32 10 x)

/-- SHA-256 big sigma 0. -/
def bigSig0 (x : Nat) : Nat := Nat.xor (Nat.xor (rotr32 2 x) (rotr32 13 x)) (rotr32 22 x)

/-- SHA-256 big sigma 1. -/
def bigSig1 (x : Nat) : Nat := Nat.xor (Nat.xor (rotr32 6 x) (rotr32 11 x)) (rotr32 25 x)

/-- SHA-256 choice function. -/
def chf (e f g : Nat) : Nat := Nat.xor (Nat.land e f) (Nat.land (not32 e) g)

/-- SHA-256 majority function. -/
def majf (a b c : Nat) : Nat :=
  Nat.xor (Nat.xor (Nat.land a b) (Nat.land a c)) (Nat.land b c)

/-- The 64 SHA-256 round constants. -/
def sha256K : List Nat :=
  [1116352408, 1899447441, 3049323471, 3921009573, 961987163,
   1508970993, 2453635748, 2870763221, 3624381080, 310598401,
   607225278, 1426881987, 1925078388, 2162078206, 2614888103,
   3248222580, 3835390401, 4022224774, 264347078, 604807628,
   770255983, 1249150122, 1555081692, 1996064986, 2554220882,
   2821834349, 2952996808, 3210313671, 3336571891, 3584528711,
   113926993, 338241895, 666307205, 773529912, 1294757372,
   1396182291, 1695183700, 1986661051, 2177026350, 2456956037,
   2730485921, 2820302411, 3259730800, 3345764771, 3516065817,
   3600352804, 4094571909, 275423344, 430227734, 506948616,
   659060556, 883997877, 958139571, 1322822218, 1537002063,
   1747873779, 1955562222, 2024104815, 2227730452, 2361852424,
   2428436474, 2756734187, 3204031479, 3329325298]

/-- The eight SHA-256 working variables. -/
structure HashState where
  a : Nat
  b : Nat
  c : Nat
  d : Nat
  e : Nat
  f : Nat
  g : Nat
  h : Nat

/-- The SHA-256 initial hash value. -/
def sha256Init : HashState :=
  ⟨1779033703, 3144134277, 1013904242, 2773480762,
   1359893119, 2600822924, 528734635, 1541459225⟩

/-- Group a 64-byte chunk into 16 big-endian 32-bit words. -/
def chunkWords : List Nat → List Nat
  | b0 :: b1 :: b2 :: b3 :: rest => (((b0 * 256 + b1) * 256 + b2) * 256 + b3) :: chunkWords rest
  | _ => []

/-- Extend the 16 schedule words by `n` further words (the source runs this to
64 words). -/
def extendW : Nat → List Nat → List Nat
  | 0, w => w
  | n + 1, w =>
    let i := w.length
    let nw := (smallSig1 (w.getD (i - 2) 0) + w.getD (i - 7) 0 +
               smallSig0 (w.getD (i - 15) 0) + w.getD (i - 16) 0) % w32
    extendW n (w ++ [nw])

/-- One SHA-256 round. -/
def sha256Round (st : Nat × Nat × Nat × Nat × Nat × Nat × Nat × Nat) (kw : Nat × Nat) :
    Nat × Nat × Nat × Nat × Nat × Nat × Nat × Nat :=
  match st, kw with
  | (a, b, c, d, e, f, g, hv), (k, w) =>
    let t1 := (hv + bigSig1 e + chf e f g + k + w) % w32
    let t2 := (bigSig0 a + majf a b c) % w32
    ((t1 + t2) % w32, a, b, c, (d + t1) % w32, e, f, g)

/-- Compress one 64-byte chunk into the running hash state. -/
def sha256Compress (hs : HashState) (chunk : List Nat) : HashState :=
  let ws := extendW 48 (chunkWords chunk)
  let r := (sha256K.zip ws).foldl sha256Round (hs.a, hs.b, hs.c, hs.d, hs.e, hs.f, hs.g, hs.h)
  match r with
  | (a, b, c, d, e, f, g, hv) =>
    ⟨(hs.a + a) % w32, (hs.b + b) % w32, (hs.c + c) % w32, (hs.d + d) % w32,
     (hs.e + e) % w32, (hs.f + f) % w32, (hs.g + g) % w32, (hs.h + hv) % w32⟩

/-- SHA-256 padding: append `0x80`, zeros, and the 64-bit bit length. -/
def sha256Pad (msg : List Nat) : List Nat :=
  let padLen := (64 - (msg.length + 9) % 64) % 64
  msg ++ [128] ++ List.replicate padLen 0 ++ beBytes 8 (8 * msg.length)

/-- Fold the first `n` 64-byte chunks of the (padded) message into the state;
the padded message has exactly `length / 64` chunks. -/
def sha256Chunks : Nat → HashState → List Nat → HashState
  | 0, hs, _ => hs
  | n + 1, hs, l => sha256Chunks n (sha256Compress hs (l.take 64)) (l.drop 64)

/-- SHA-256 of a byte string, as a list of 32 bytes (Go `sha256.Sum256`). -/
def sha256 (msg : List Nat) : List Nat :=
  let padded := sha256Pad msg
  let hs := sha256Chunks (padded.length / 64) sha256Init padded
  beBytes 4 hs.a ++ beBytes 4 hs.b ++ beBytes 4 hs.c ++ beBytes 4 hs.d ++
  beBytes 4 hs.e ++ beBytes 4 hs.f ++ beBytes 4 hs.g ++ beBytes 4 hs.h

/-! ## Cache keys

`gateway/cache.go` and `src/unnamed/part_000` both define `getCacheKey`; the
first hex-encodes the whole SHA-256 digest, the second keeps only the first 16
hex characters. Request texts are byte strings (`List Nat`). -/

namespace CacheGo

/-- Embedding of `getCacheKey` from `gateway/cache.go` (lines 151-154):
`"ai:summary:" + hex.EncodeToString(sha256.Sum256([]byte(text))[:])`. -/
def getCacheKey (text : List Nat) : String :=
  String.mk ("ai:summary:".data ++ hexChars (sha256 text))

end CacheGo

namespace Part000

/-- Embedding of `getCacheKey` from `src/unnamed/part_000` (lines 66-70):
same as the `cache.go` version but keeping only the first 16 hex characters
of the digest (`hex.EncodeToString(hash[:])[:16]`). -/
def getCacheKey (text : List Nat) : String :=
  String.mk ("ai:summary:".data ++ (hexChars (sha256 text)).take 16)

end Part000

/-- A summarize request as the gateway sees it: the semantic content plus the
payment metadata that accompanies it (headers and recovered payer). -/
structure ApiRequest where
  text : List Nat
  nonce : List Nat
  payer : List Nat
  signature : List Nat

/-- The cache key the middleware computes for a request: `cache.go` line 77
parses the body into `SummarizeRequest` and passes only `req.Text` to
`getCacheKey`. -/
def cacheKeyOfRequest (r : ApiRequest) : String := CacheGo.getCacheKey r.text

/-! ## Rate-limit key (`src/unnamed/part_003`, lines 446-459) -/

/-- Embedding of `getRateLimitKey`: when both `X-402-Signature` and
`X-402-Nonce` headers are present (Go: non-empty strings), the key is
`"nonce:" + hex.EncodeToString(sha256.Sum256(nonce))[:32]`; otherwise it is
`"ip:" + c.ClientIP()`. -/
def getRateLimitKey (signature nonce : List Nat) (clientIP : String) : String :=
  if signature ≠ [] ∧ nonce ≠ [] then
    String.mk ("nonce:".data ++ (hexChars (sha256 nonce)).take 32)
  else
    String.mk ("ip:".data ++ clientIP.data)

/-! ## Cache middleware drafts and their interaction with payment verification -/

/-- Observable calls the middleware makes to its collaborators, in order. -/
inductive GatewayEv
  | cacheGet (key : String)
  | verifierCall
  | backendCall
deriving DecidableEq

/-- The value stored in the cache (`CachedResponse` in `cache.go`). -/
structure CachedResponse where
  result : String
  cachedAt : Nat

/-- What a middleware run produces: either fall through to the handler
(`c.Next()` with no terminal response) or a terminal response
(status, body result text, whether it came from the cache). -/
inductive MidOutcome
  | next
  | respond (status : Nat) (result : String) (cached : Bool)
deriving DecidableEq

/-- An inbound HTTP request as the middleware reads it: the two payment
headers (Go empty string = `[]` = header absent) and the parsed
`SummarizeRequest.Text` when the JSON body parses (`none` otherwise). -/
structure HttpRequest where
  signature : List Nat
  nonce : List Nat
  parsedText : Option (List Nat)

/-- Outcome of one call to the external verifier for the current request. -/
inductive VerifyOutcome
  | ok (recoveredAddress : String)
  | invalid (err : String)
  | timeout
  | failure (err : String)

namespace MiddlewareDraft

/-- Embedding of `CacheMiddleware` from `gateway/cache_middleware.go`
(first draft, lines 17-81; the cache-hit branch is lines 53-66): if Redis is
up and the body parses, it looks the content key up in the cache and, on a
hit, immediately answers 200 with the cached result and aborts — without
consulting the payment headers or the verifier at all. On a miss it falls
through to the handler. The returned event list records the external calls
made, in order. -/
def CacheMiddleware (redisUp : Bool) (req : HttpRequest)
    (cache : String → Option CachedResponse) : MidOutcome × List GatewayEv :=
  if ¬redisUp then (.next, [])
  else
    match req.parsedText with
    | none => (.next, [])
    | some text =>
      let key := CacheGo.getCacheKey text
      match cache key with
      | some cached => (.respond 200 cached.result true, [.cacheGet key])
      | none => (.next, [.cacheGet key])

end MiddlewareDraft

namespace CacheGo

/-- Embedding of `CacheMiddleware` from `gateway/cache.go` (lines 25-148; the
cache-hit block is lines 80-113): requires both payment headers, computes the
content key, and performs the cache `Get` (line 80) *before* calling
`verifyPayment` (line 84); only on a successful verification does it serve the
cached result (with a fresh receipt), answering 504/500/403 otherwise. The
event list records the order of the external calls. -/
def CacheMiddleware (redisUp : Bool) (req : HttpRequest)
    (cache : String → Option CachedResponse) (verify : VerifyOutcome) :
    MidOutcome × List GatewayEv :=
  if ¬redisUp then (.next, [])
  else if req.signature = [] ∨ req.nonce = [] then (.next, [])
  else
    match req.parsedText with
    | none => (.next, [])
    | some text =>
      let key := getCacheKey text
      match cache key with
      | some cached =>
        match verify with
        | .timeout => (.respond 504 "Gateway Timeout" false, [.cacheGet key, .verifierCall])
        | .failure e => (.respond 500 e false, [.cacheGet key, .verifierCall])
        | .invalid e => (.respond 403 e false, [.cacheGet key, .verifierCall])
        | .ok _ => (.respond 200 cached.result true, [.cacheGet key, .verifierCall])
      | none => (.next, [.cacheGet key])

end CacheGo

/-! ## Environment and payment-context helpers (`src/unnamed/part_003` /
`gateway/cache_test.go` third section) -/

/-- The process environment, Go `os.Getenv` style: unset variables read as
the empty string. -/
def Env : Type := String → String

/-- Numeric value of a decimal digit character, if it is one. -/
def digitVal (c : Char) : Option Nat :=
  if 48 ≤ c.toNat ∧ c.toNat ≤ 57 then some (c.toNat - 48) else none

/-- Parse of a non-empty all-digit decimal string (the behaviour of Go's
`strconv.Atoi` on the values the gateway accepts; `Atoi` additionally accepts
signs, which the configuration defaults ignore). -/
def parseNatDecimal (s : String) : Option Nat :=
  if s.data = [] then none
  else
    s.data.foldl
      (fun acc c =>
        match acc, digitVal c with
        | some n, some d => some (n * 10 + d)
        | _, _ => none)
      (some 0)

/-- Embedding of `getRecipientAddress`: `RECIPIENT_ADDRESS` with a hard-coded
fallback. -/
def getRecipientAddress (env : Env) : String :=
  if env "RECIPIENT_ADDRESS" = "" then "0x2cAF48b4BA1C58721a85dFADa5aC01C2DFa62219"
  else env "RECIPIENT_ADDRESS"

/-- Embedding of `getPaymentAmount`: `PAYMENT_AMOUNT` defaulting to `"0.001"`. -/
def getPaymentAmount (env : Env) : String :=
  if env "PAYMENT_AMOUNT" = "" then "0.001" else env "PAYMENT_AMOUNT"

/-- Embedding of `getChainID`: `CHAIN_ID` parsed as an integer, defaulting to
8453 when unset or invalid. -/
def getChainID (env : Env) : Nat :=
  match parseNatDecimal (env "CHAIN_ID") with
  | some n => n
  | none => 8453

/-- Modelled from the spec: the nonce generator used by
`createPaymentContext`, Go's `uuid.New()` (github.com/google/uuid, not part of
this repository) which draws a fresh random 128-bit version-4 UUID per
challenge; the spec's data model states "a fresh nonce is generated per
challenge". Modelled as the big-endian 16-byte encoding of a 128-bit
freshness counter, so distinct draws below `2^128` yield distinct nonces. -/
def uuidNew (draw : Nat) : List Nat := beBytes 16 draw

/-- The payment challenge issued to unpaying callers (`PaymentContext` in the
Go source; the nonce is the raw 16-byte UUID). -/
structure PaymentContext where
  recipient : String
  token : String
  amount : String
  nonce : List Nat
  chainId : Nat

/-- Embedding of `createPaymentContext` (`gateway/cache_test.go` third
section, lines 610-618): recipient/amount/chain from the environment, token
`"USDC"`, and a newly drawn UUID nonce. -/
def createPaymentContext (env : Env) (draw : Nat) : PaymentContext :=
  ⟨getRecipientAddress env, "USDC", getPaymentAmount env, uuidNew draw, getChainID env⟩

/-- The 402 response body of the payment check. -/
structure PaymentRequiredBody where
  error : String
  message : String
  paymentContext : PaymentContext

/-- Embedding of the payment-check stage of `handleSummarize`
(`gateway/cache_test.go` third section, lines 510-523): when either payment
header is absent the handler terminates with 402 and a freshly created
payment challenge; otherwise it proceeds (`none`). `draw` is the state of the
UUID generator at this response. -/
def paymentCheck (env : Env) (signature nonce : List Nat) (draw : Nat) :
    Option (Nat × PaymentRequiredBody) :=
  if signature = [] ∨ nonce = [] then
    some (402, ⟨"Payment Required", "Please sign the payment context",
                createPaymentContext env draw⟩)
  else none

/-! ## Backend-error responses (`src/unnamed/part_003`, lines 280-290) -/

/-- Outcome of `callOpenRouter` for the current request. -/
inductive BackendOutcome
  | ok (summary : String)
  | timeout
  | failure (msg : String)

/-- Embedding of the backend-call result handling in `handleSummarize`
(`src/unnamed/part_003` lines 280-290): each `c.JSON(status, body)` the code
executes appends one `(status, body)` write, in program order. On any error
the code first executes `c.JSON(500, err.Error())` (line 282) and then either
the 504 timeout write (line 285) or the generic 500 write (line 288); gin
transmits the status line of the first write only. -/
def backendErrorWrites : BackendOutcome → List (Nat × String)
  | .ok s => [(200, s)]
  | .timeout => [(500, "context deadline exceeded"), (504, "Gateway Timeout")]
  | .failure msg => [(500, msg), (500, "AI Service Failed")]

/-- The status code the caller actually receives: that of the first write
(gin writes the header once; later `c.JSON` calls only append body bytes). -/
def effectiveStatus (writes : List (Nat × String)) : Nat := (writes.headD (200, "")).1

/-! ## Health route pipeline (`src/unnamed/part_003`, lines 120-171) -/

/-- A terminal response of the health route chain. -/
inductive HealthResp
  | health (status : Nat) (statusField : String) (service : String)
  | rateLimited (status : Nat) (error : String)
deriving DecidableEq

/-- Embedding of the `/healthz` route chain built in `src/unnamed/part_003`
`main` (lines 120-148) together with `handleHealth` (lines 166-171): when
`RATE_LIMIT_ENABLED` is set, `RateLimitMiddleware` is installed with `r.Use`
(line 137) before the `/healthz` route is registered (line 148), so gin
includes it in the health route's handler chain and it aborts with 429
whenever the limiter denies the request's key (lines 421-434). Payment checks
live only in `handleSummarize`, so none run here; the event trace records any
verifier calls (there are none). `allow` is the token-bucket decision
`limiter.Allow(key)` for this request's key. -/
def healthzPipeline (rateLimitEnabled allow : Bool) : HealthResp × List GatewayEv :=
  if rateLimitEnabled ∧ ¬allow then (.rateLimited 429 "Too Many Requests", [])
  else (.health 200 "ok" "gateway", [])

/-! ## Receipt engine

The Go `GenerateReceipt` implementation is not under `src/` (only its callers
in `gateway/cache_test.go` and the TypeScript verifier `src/unnamed/part_005`
are), so the signing side is modelled from the spec (section 4.4); the
verification side follows `verifyReceipt` in `src/unnamed/part_005`. -/

/-- Payment half of a receipt (`PaymentDetails` in `src/unnamed/part_005`). -/
structure PaymentDetails where
  payer : String
  recipient : String
  amount : String
  token : String
  chainId : Nat
  nonce : String
deriving DecidableEq

/-- Service half of a receipt (`ServiceDetails` in `src/unnamed/part_005`). -/
structure ServiceDetails where
  endpoint : String
  request_hash : String
  response_hash : String
deriving DecidableEq

/-- A receipt (`Receipt` in `src/unnamed/part_005`; the Go side is a struct
with the same fixed schema). -/
structure Receipt where
  id : String
  version : String
  timestamp : String
  payment : PaymentDetails
  service : ServiceDetails
deriving DecidableEq

/-- A JSON string literal (no escaping: the receipts considered here contain
no characters that `JSON.stringify` escapes). -/
def jstr (s : String) : String := "\"" ++ s ++ "\""

/-- One JSON key/value pair. -/
def jfield (k v : String) : String := jstr k ++ ":" ++ v

/-- Deterministic serialization of a receipt: `JSON.stringify` /
`json.Marshal` over the fixed struct schema, fields in declaration order
(`src/unnamed/part_005` line 66 relies on this order matching the Go
serialization). -/
def serializeReceipt (r : Receipt) : String :=
  "\x7b" ++ jfield "id" (jstr r.id) ++ "," ++
  jfield "version" (jstr r.version) ++ "," ++
  jfield "timestamp" (jstr r.timestamp) ++ "," ++
  jfield "payment" ("\x7b" ++ jfield "payer" (jstr r.payment.payer) ++ "," ++
    jfield "recipient" (jstr r.payment.recipient) ++ "," ++
    jfield "amount" (jstr r.payment.amount) ++ "," ++
    jfield "token" (jstr r.payment.token) ++ "," ++
    jfield "chainId" (toString r.payment.chainId) ++ "," ++
    jfield "nonce" (jstr r.payment.nonce) ++ "\x7d") ++ "," ++
  jfield "service" ("\x7b" ++ jfield "endpoint" (jstr r.service.endpoint) ++ "," ++
    jfield "request_hash" (jstr r.service.request_hash) ++ "," ++
    jfield "response_hash" (jstr r.service.response_hash) ++ "\x7d") ++ "\x7d"

/-- Modelled from the spec: the order of the signing group used by the ECDSA
scheme (go-ethereum's secp256k1, an external library). A smaller prime group
order keeps the model executable; the recovery algebra is unchanged. -/
def ecOrder : Nat := 65521

instance ecOrder_prime : Fact (Nat.Prime ecOrder) := ⟨by norm_num [ecOrder]⟩

/-- Scalars of the signing group (and, in this model, its points). -/
abbrev Scalar := ZMod ecOrder

/-- Modelled from the spec: the group generator. The curve group is modelled
as the additive group of scalars with generator 1 and the x-coordinate map
the identity; discrete-log hardness plays no role in the claims proved here,
while the ECDSA signing/recovery algebra is preserved. -/
def ecG : Scalar := 1

/-- The server public key derived from a private key (scalar times the
generator). -/
def pubKeyOf (sk : Scalar) : Scalar := sk * ecG

/-- An ECDSA signature: the two scalars and the recovery identifier. -/
structure EcSig where
  r : Scalar
  s : Scalar
  v : Nat
deriving DecidableEq

/-- Modelled from the spec: ECDSA signing of a digest `z` with private key
`sk` and ephemeral scalar `k` (go-ethereum `crypto.Sign`): `r` is the
x-coordinate of `k·G`, `s = k⁻¹(z + r·sk)`, and `v` identifies the point
with x-coordinate `r` (always 0 in this one-point-per-x model; `crypto.Sign`
yields 0 or 1). Fails when the ephemeral scalar degenerates. -/
def ecSign (sk k z : Scalar) : Option EcSig :=
  if k = 0 then none
  else
    let r := k * ecG
    if r = 0 then none
    else some ⟨r, k⁻¹ * (z + r * sk), 0⟩

/-- Modelled from the spec: public-key recovery from signature and digest
(ethers `SigningKey.recoverPublicKey` / go-ethereum `crypto.Ecrecover`):
reconstruct the point `R` with x-coordinate `r` selected by `v`, and return
`r⁻¹·(s·R − z·G)`. Fails on a degenerate `r` or an out-of-range recovery
identifier. -/
def ecRecover (z : Scalar) (sig : EcSig) : Option Scalar :=
  if sig.r = 0 ∨ 2 ≤ sig.v then none
  else some (sig.r⁻¹ * (sig.s * sig.r - z * ecG))

/-- Modelled from the spec: the cryptographic digest of the serialized
receipt used as the signed message (Keccak-256 in the source, an external
library), reduced into the scalar field: the canonical base-256 fold of the
serialized bytes. -/
def receiptDigest (r : Receipt) : Scalar :=
  ((serializeReceipt r).data.map Char.toNat).foldl (fun a b => a * 256 + (b : Scalar)) 0

/-- The fixed-width 65-byte wire encoding of a signature: 32 big-endian bytes
of `r`, 32 of `s`, then the recovery identifier. -/
def sigEncode (sig : EcSig) : List Nat :=
  beBytes 32 sig.r.val ++ beBytes 32 sig.s.val ++ [sig.v]

/-- Decoding of a 65-byte signature (`src/unnamed/part_005` lines 72-87:
reject any other length, split into `r`, `s` and the recovery byte). -/
def sigDecode (bytes : List Nat) : Option EcSig :=
  if bytes.length = 65 then
    some ⟨(beVal (bytes.take 32) : Nat), (beVal ((bytes.drop 32).take 32) : Nat),
          bytes.getD 64 0⟩
  else none

/-- A signed receipt (`SignedReceipt` in `src/unnamed/part_005`): receipt,
wire signature, and the server public key embedded for comparison. -/
structure SignedReceipt where
  receipt : Receipt
  signature : List Nat
  server_public_key : Scalar
deriving DecidableEq

/-- Modelled from the spec: `GenerateReceipt` (the receipt engine's signing
side, not under `src/`): serialize the receipt deterministically, digest the
serialization, ECDSA-sign the digest with the server key `sk` (ephemeral
scalar `k`), and emit the receipt with the 65-byte signature and the server
public key. -/
def generateSignedReceipt (sk k : Scalar) (r : Receipt) : Option SignedReceipt :=
  match ecSign sk k (receiptDigest r) with
  | none => none
  | some sig => some ⟨r, sigEncode sig, pubKeyOf sk⟩

/-- Embedding of `verifyReceipt` from `src/unnamed/part_005` (lines 57-98):
reject a missing signature, reject any signature that is not exactly 65
bytes, recover the public key from (digest of serialized receipt, signature),
and compare it with the embedded server public key (the source lowercases
both hex strings; keys are compared by value here). Any recovery error yields
`false` via the surrounding catch. -/
def verifyReceipt (sr : SignedReceipt) : Bool :=
  if sr.signature = [] then false
  else
    match sigDecode sr.signature with
    | none => false
    | some sig =>
      match ecRecover (receiptDigest sr.receipt) sig with
      | none => false
      | some pk => decide (pk = sr.server_public_key)

/-! ## Receipt store with TTL (`gateway/cache_test.go` third section) -/

/-- Embedding of the receipt store: `storeReceipt` (lines 743-758) inserts
`(id, receipt)` and spawns one expiry task that deletes the entry `ttl`
seconds later, so an entry stored at `t` is present exactly while
`now < t + ttl`. The store is the list of (id, receipt, store time). -/
def lookupReceipt (stored : List (String × SignedReceipt × Nat)) (ttl now : Nat)
    (id : String) : Option SignedReceipt :=
  match stored.find? (fun e => e.1 == id) with
  | some (_, sr, t) => if now < t + ttl then some sr else none
  | none => none

/-- The response of the receipt lookup endpoint. -/
inductive ReceiptLookupResp
  | found (status : Nat) (receipt : Receipt) (signature : List Nat)
      (server_public_key : Scalar) (st : String)
  | notFound (status : Nat) (error : String) (message : String)

/-- Embedding of `handleGetReceipt` (`gateway/cache_test.go` third section,
lines 783-801): 200 with receipt, signature, server public key and status
`"valid"` when the id is live in the store; 404 with `"Receipt not found"`
otherwise. -/
def handleGetReceipt (stored : List (String × SignedReceipt × Nat)) (ttl now : Nat)
    (id : String) : ReceiptLookupResp :=
  match lookupReceipt stored ttl now id with
  | some sr => .found 200 sr.receipt sr.signature sr.server_public_key "valid"
  | none => .notFound 404 "Receipt not found" "Receipt may have expired or never existed"

/-! ## Receipt issuance stage of `handleSummarize`
(`gateway/cache_test.go` third section, lines 579-607) -/

/-- The successful-response shape of `handleSummarize`: status, result text,
optional receipt in the body, and whether the `X-402-Receipt` header is set. -/
structure SummarizeSuccess where
  status : Nat
  result : String
  receipt : Option SignedReceipt
  receiptHeader : Bool
deriving DecidableEq

/-- Embedding of the receipt-issuance tail of `handleSummarize` (lines
579-607): on `GenerateReceipt` error the failure is logged and the handler
answers 200 with the result and no receipt; on success it stores the
receipt, sets the `X-402-Receipt` header and answers 200 with result and
receipt. -/
def receiptIssueStage (summary : String) (gen : Except String SignedReceipt) :
    SummarizeSuccess :=
  match gen with
  | .error _ => ⟨200, summary, none, false⟩
  | .ok sr => ⟨200, summary, some sr, true⟩

/-! ## Lemmas about the ECDSA model -/

/-- A concrete receipt used to instantiate the receipt theorems. -/
def wReceiptA : Receipt :=
  ⟨"rcpt_aaaa", "1.0", "2026-01-01T00:00:00Z",
   ⟨"0xpayer", "0xrecipient", "0.001", "USDC", 8453, "nonce-1"⟩,
   ⟨"/api/ai/summarize", "sha256:aaa", "sha256:bbb"⟩⟩

/-- `wReceiptA` with a single field (the id) mutated. -/
def wReceiptB : Receipt := { wReceiptA with id := "rcpt_bbbb" }

/-- A concrete signed receipt for the store-lookup theorems (the lookup path
never inspects the signature bytes). -/
def wStoredReceipt : SignedReceipt := ⟨wReceiptA, [], 0⟩

/-! ## Theorems -/
theorem beBytes_length (d m : Nat) : (beBytes d m).length = d := by
  induction d generalizing m with
  | zero => rfl
  | succ d ih => simp [beBytes, ih]

theorem beBytes_lt (d m : Nat) : ∀ b ∈ beBytes d m, b < 256 := by
  induction d generalizing m with
  | zero => simp [beBytes]
  | succ d ih =>
    intro b hb
    simp only [beBytes, List.mem_append, List.mem_singleton] at hb
    rcases hb with hb | hb
    · exact ih _ b hb
    · subst hb; exact Nat.mod_lt _ (by norm_num)

theorem beVal_append_singleton (l : List Nat) (b : Nat) :
    beVal (l ++ [b]) = beVal l * 256 + b := by
  simp [beVal, List.foldl_append]

theorem beVal_beBytes (d m : Nat) (h : m < 256 ^ d) : beVal (beBytes d m) = m := by
  induction d generalizing m with
  | zero =>
    interval_cases m
    rfl
  | succ d ih =>
    have hdiv : m / 256 < 256 ^ d := by
      apply Nat.div_lt_of_lt_mul
      calc m < 256 ^ (d + 1) := h
        _ = 256 * 256 ^ d := by ring
    rw [beBytes, beVal_append_singleton, ih _ hdiv]
    omega

theorem hexChars_length (l : List Nat) : (hexChars l).length = 2 * l.length := by
  induction l with
  | nil => rfl
  | cons b t ih => simp [hexChars, hexByte] at ih ⊢; omega

theorem hexChars_append (l₁ l₂ : List Nat) :
    hexChars (l₁ ++ l₂) = hexChars l₁ ++ hexChars l₂ := by
  simp [hexChars]

theorem hexDigitChar_injOn (a b : Nat) (ha : a < 16) (hb : b < 16)
    (h : hexDigitChar a = hexDigitChar b) : a = b := by
  interval_cases a <;> interval_cases b <;> simp_all [hexDigitChar]

theorem hexByte_injOn (a b : Nat) (ha : a < 256) (hb : b < 256)
    (h : hexByte a = hexByte b) : a = b := by
  simp only [hexByte, List.cons.injEq, and_true] at h
  have h1 := hexDigitChar_injOn _ _ (Nat.mod_lt _ (by norm_num)) (Nat.mod_lt _ (by norm_num)) h.1
  have h2 := hexDigitChar_injOn _ _ (Nat.mod_lt _ (by norm_num)) (Nat.mod_lt _ (by norm_num)) h.2
  have ha' : a / 16 < 16 := Nat.div_lt_of_lt_mul (by omega)
  have hb' : b / 16 < 16 := Nat.div_lt_of_lt_mul (by omega)
  rw [Nat.mod_eq_of_lt ha', Nat.mod_eq_of_lt hb'] at h1
  omega

theorem hexChars_injOn (l₁ l₂ : List Nat) (h₁ : ∀ b ∈ l₁, b < 256)
    (h₂ : ∀ b ∈ l₂, b < 256) (h : hexChars l₁ = hexChars l₂) : l₁ = l₂ := by
  induction l₁ generalizing l₂ with
  | nil =>
    cases l₂ with
    | nil => rfl
    | cons b t => simp [hexChars, hexByte] at h
  | cons a t ih =>
    cases l₂ with
    | nil => simp [hexChars, hexByte] at h
    | cons b t₂ =>
      simp only [hexChars, List.flatMap_cons] at h
      have hx : hexByte a = hexByte b ∧ t.flatMap hexByte = t₂.flatMap hexByte := by
        have hlen : (hexByte a).length = (hexByte b).length := by simp [hexByte]
        exact List.append_inj h (by simpa using hlen)
      have hab : a = b :=
        hexByte_injOn a b (h₁ a (by simp)) (h₂ b (by simp)) hx.1
      have ht : t = t₂ :=
        ih t₂ (fun x hx' => h₁ x (List.mem_cons_of_mem _ hx'))
          (fun x hx' => h₂ x (List.mem_cons_of_mem _ hx')) hx.2
      rw [hab, ht]

theorem sha256_length (msg : List Nat) : (sha256 msg).length = 32 := by
  simp [sha256, beBytes_length]

theorem sha256_lt (msg : List Nat) : ∀ b ∈ sha256 msg, b < 256 := by
  intro b hb
  simp only [sha256, List.mem_append] at hb
  rcases hb with ((((((h | h) | h) | h) | h) | h) | h) | h <;> exact beBytes_lt _ _ b h

theorem sha256_getD_lt (msg : List Nat) (i : Nat) : (sha256 msg).getD i 0 < 256 := by
  by_cases h : i < (sha256 msg).length
  · rw [List.getD_eq_getElem _ _ h]
    exact sha256_lt msg _ (List.getElem_mem h)
  · rw [List.getD_eq_default _ _ (Nat.le_of_not_lt h)]
    norm_num

theorem hexChars_take (l : List Nat) (k : Nat) :
    (hexChars l).take (2 * k) = hexChars (l.take k) := by
  induction l generalizing k with
  | nil => simp [hexChars]
  | cons b t ih =>
    cases k with
    | zero => simp [hexChars]
    | succ k =>
      have h2 : 2 * (k + 1) = 2 * k + 1 + 1 := by ring
      simp only [hexChars, List.flatMap_cons, hexByte, List.take_succ_cons,
        List.cons_append, List.nil_append, h2]
      have ht := ih k
      simp only [hexChars] at ht
      rw [ht]

theorem ecSign_some (sk k z : Scalar) (sig : EcSig) (h : ecSign sk k z = some sig) :
    k ≠ 0 ∧ sig = ⟨k, k⁻¹ * (z + k * sk), 0⟩ := by
  by_cases hk : k = 0
  · simp [ecSign, hk] at h
  · refine ⟨hk, ?_⟩
    simp [ecSign, ecG, hk, mul_one] at h
    exact h.symm

theorem ecRecover_ecSign (sk k z : Scalar) (sig : EcSig)
    (h : ecSign sk k z = some sig) : ecRecover z sig = some (pubKeyOf sk) := by
  obtain ⟨hk, rfl⟩ := ecSign_some sk k z sig h
  simp only [ecRecover, ecG, mul_one]
  rw [if_neg]
  · congr 1
    rw [pubKeyOf, ecG, mul_one]
    field_simp
  · push_neg
    exact ⟨hk, by norm_num⟩

theorem ecRecover_ne_of_digest_ne (sk k z z' : Scalar) (sig : EcSig)
    (h : ecSign sk k z = some sig) (hz : z' ≠ z) :
    ecRecover z' sig ≠ some (pubKeyOf sk) := by
  obtain ⟨hk, rfl⟩ := ecSign_some sk k z sig h
  simp only [ecRecover, ecG, mul_one]
  rw [if_neg]
  swap
  · push_neg
    exact ⟨hk, by norm_num⟩
  intro hc
  rw [Option.some.injEq] at hc
  have hki : (k : Scalar)⁻¹ ≠ 0 := inv_ne_zero hk
  have hexp : k⁻¹ * (k⁻¹ * (z + k * sk) * k - z') = sk + k⁻¹ * (z - z') := by
    field_simp
    ring
  rw [hexp, pubKeyOf, ecG, mul_one] at hc
  have hzero : k⁻¹ * (z - z') = 0 := by linear_combination hc
  rcases mul_eq_zero.mp hzero with hbad | hdiff
  · exact hki hbad
  · exact hz (sub_eq_zero.mp hdiff).symm

theorem sigEncode_length (sig : EcSig) : (sigEncode sig).length = 65 := by
  simp [sigEncode, beBytes_length]

theorem scalar_val_lt_pow (x : Scalar) : x.val < 256 ^ 32 := by
  have h1 : x.val < ecOrder := ZMod.val_lt x
  have h2 : ecOrder < 256 ^ 32 := by norm_num [ecOrder]
  omega

theorem sigDecode_sigEncode (sig : EcSig) (hv : sig.v < 2) :
    sigDecode (sigEncode sig) = some sig := by
  have hlen : (sigEncode sig).length = 65 := sigEncode_length sig
  have hr : (sigEncode sig).take 32 = beBytes 32 sig.r.val := by
    rw [sigEncode, List.append_assoc]
    exact List.take_left' (beBytes_length 32 _)
  have hdrop : (sigEncode sig).drop 32 = beBytes 32 sig.s.val ++ [sig.v] := by
    rw [sigEncode, List.append_assoc]
    exact List.drop_left' (beBytes_length 32 _)
  have hs : ((sigEncode sig).drop 32).take 32 = beBytes 32 sig.s.val := by
    rw [hdrop]
    exact List.take_left' (beBytes_length 32 _)
  have hv64 : (sigEncode sig).getD 64 0 = sig.v := by
    rw [sigEncode, List.append_assoc,
      List.getD_append_right _ _ _ _ (by simp [beBytes_length]),
      List.getD_append_right _ _ _ _ (by simp [beBytes_length])]
    simp [beBytes_length]
  rw [sigDecode, if_pos hlen, hr, hs, hv64, beVal_beBytes _ _ (scalar_val_lt_pow _),
    beVal_beBytes _ _ (scalar_val_lt_pow _)]
  simp [ZMod.natCast_val, ZMod.cast_id]

theorem verifyReceipt_of_generate (sk k : Scalar) (r : Receipt) (sr : SignedReceipt)
    (h : generateSignedReceipt sk k r = some sr) : verifyReceipt sr = true := by
  unfold generateSignedReceipt at h
  cases hsig : ecSign sk k (receiptDigest r) with
  | none => rw [hsig] at h; cases h
  | some sig =>
    rw [hsig] at h
    rw [Option.some.injEq] at h
    subst h
    have hv : sig.v = 0 := by
      obtain ⟨-, rfl⟩ := ecSign_some sk k _ sig hsig
      rfl
    have hne : sigEncode sig ≠ [] := by
      intro hnil
      have := congrArg List.length hnil
      rw [sigEncode_length] at this
      cases this
    rw [verifyReceipt, if_neg hne]
    simp only
    rw [sigDecode_sigEncode sig (by omega)]
    simp only
    rw [ecRecover_ecSign sk k _ sig hsig]
    exact decide_eq_true rfl

theorem verifyReceipt_mutated_false (sk k : Scalar) (r r' : Receipt) (sr : SignedReceipt)
    (h : generateSignedReceipt sk k r = some sr)
    (hz : receiptDigest r' ≠ receiptDigest r) :
    verifyReceipt ⟨r', sr.signature, sr.server_public_key⟩ = false := by
  unfold generateSignedReceipt at h
  cases hsig : ecSign sk k (receiptDigest r) with
  | none => rw [hsig] at h; cases h
  | some sig =>
    rw [hsig] at h
    rw [Option.some.injEq] at h
    subst h
    have hv : sig.v = 0 := by
      obtain ⟨-, rfl⟩ := ecSign_some sk k _ sig hsig
      rfl
    have hne : sigEncode sig ≠ [] := by
      intro hnil
      have := congrArg List.length hnil
      rw [sigEncode_length] at this
      cases this
    have goalEq : verifyReceipt ⟨r', sigEncode sig, pubKeyOf sk⟩ =
        (match ecRecover (receiptDigest r') sig with
         | none => false
         | some pk => decide (pk = pubKeyOf sk)) := by
      rw [verifyReceipt, if_neg hne, sigDecode_sigEncode sig (by omega)]
    rw [goalEq]
    have hrec := ecRecover_ne_of_digest_ne sk k (receiptDigest r) (receiptDigest r') sig hsig hz
    cases hcase : ecRecover (receiptDigest r') sig with
    | none => rfl
    | some pk =>
      rw [hcase] at hrec
      have hne' : pk ≠ pubKeyOf sk := fun hpk => hrec (by rw [hpk])
      exact decide_eq_false hne'

/-- A helper equation for `verifyReceipt` on a literal signed receipt. -/
theorem verifyReceipt_def (rr : Receipt) (s : List Nat) (p : Scalar) :
    verifyReceipt ⟨rr, s, p⟩ =
      (if s = [] then false
       else
         match sigDecode s with
         | none => false
         | some sig =>
           match ecRecover (receiptDigest rr) sig with
           | none => false
           | some pk => decide (pk = p)) := rfl

/-- The shape of every successfully generated signed receipt. -/
theorem generateSignedReceipt_shape (sk k : Scalar) (r : Receipt) (sr : SignedReceipt)
    (h : generateSignedReceipt sk k r = some sr) :
    ∃ sig : EcSig, sig.v = 0 ∧ sr = ⟨r, sigEncode sig, pubKeyOf sk⟩ := by
  unfold generateSignedReceipt at h
  cases hsig : ecSign sk k (receiptDigest r) with
  | none => rw [hsig] at h; cases h
  | some sig =>
    rw [hsig] at h
    rw [Option.some.injEq] at h
    refine ⟨sig, ?_, h.symm⟩
    obtain ⟨-, rfl⟩ := ecSign_some sk k _ sig hsig
    rfl

/-- Signing with ephemeral scalar 1 always succeeds and has a closed form. -/
theorem ecSign_one (sk z : Scalar) : ecSign sk 1 z = some ⟨1, z + sk, 0⟩ := by
  simp [ecSign, ecG]

/-- C1: the claim says a cached result is served only after the current
request's signature verifies and that cache `Get` runs only after that
verification. The code violates this: the `gateway/cache_middleware.go` draft
(cache-hit branch, lines 53-66) serves the cached result with status 200 and
no verifier call at all for a request whose content is cached but that
carries no signature — instead of the claimed 402 — and even the
`gateway/cache.go` draft performs the cache `Get` (line 80) before its
verifier call (line 84), as its event trace shows. -/
theorem C1_cached_result_served_without_verification :
    (MiddlewareDraft.CacheMiddleware true ⟨[], [], some [104, 105]⟩
        (fun _ => some ⟨"cached summary", 0⟩) =
      (.respond 200 "cached summary" true, [.cacheGet (CacheGo.getCacheKey [104, 105])])) ∧
    GatewayEv.verifierCall ∉
      (MiddlewareDraft.CacheMiddleware true ⟨[], [], some [104, 105]⟩
        (fun _ => some ⟨"cached summary", 0⟩)).2 ∧
    (CacheGo.CacheMiddleware true ⟨[1], [2], some [104, 105]⟩
        (fun _ => some ⟨"cached summary", 0⟩) (.ok "0xpayer")).2 =
      [.cacheGet (CacheGo.getCacheKey [104, 105]), .verifierCall] := by
  refine ⟨rfl, ?_, rfl⟩
  simp [MiddlewareDraft.CacheMiddleware]

/-- C3 counterexample: the cache key cannot separate every pair of distinct
contents — SHA-256 maps infinitely many texts into 32 bytes, so by the
pigeonhole principle two distinct texts share a key. -/
theorem C3_distinct_content_key_collision_exists :
    ¬ (∀ t₁ t₂ : List Nat, t₁ ≠ t₂ → CacheGo.getCacheKey t₁ ≠ CacheGo.getCacheKey t₂) := by
  intro hinj
  obtain ⟨n, m, hnm, hfe⟩ := Finite.exists_ne_map_eq_of_infinite
    (fun n : ℕ => fun i : Fin 32 =>
      (⟨(sha256 (List.replicate n 0)).getD i.val 0, sha256_getD_lt _ _⟩ : Fin 256))
  apply hinj (List.replicate n 0) (List.replicate m 0)
  · intro hrep
    apply hnm
    have := congrArg List.length hrep
    simpa using this
  · have hdig : sha256 (List.replicate n 0) = sha256 (List.replicate m 0) := by
      apply List.ext_getElem (by rw [sha256_length, sha256_length])
      intro i h1 h2
      have hi : i < 32 := by rw [sha256_length] at h1; exact h1
      have hcomp := congrFun hfe ⟨i, hi⟩
      have hval : (sha256 (List.replicate n 0)).getD i 0 =
          (sha256 (List.replicate m 0)).getD i 0 := congrArg Fin.val hcomp
      rwa [List.getD_eq_getElem _ _ h1, List.getD_eq_getElem _ _ h2] at hval
    rw [CacheGo.getCacheKey, CacheGo.getCacheKey, hdig]

/-- C3 (amended): the cache key is a pure function of the request content —
identical content yields identical keys whatever the nonce, payer or
signature — and requests differing only in content receive different keys
whenever their SHA-256 digests differ (digest collisions, which exist by
pigeonhole but have never been exhibited, are the only possible source of
key collisions). -/
theorem C3_cache_key_content_addressed (r₁ r₂ : ApiRequest) :
    (r₁.text = r₂.text → cacheKeyOfRequest r₁ = cacheKeyOfRequest r₂) ∧
    (sha256 r₁.text ≠ sha256 r₂.text → cacheKeyOfRequest r₁ ≠ cacheKeyOfRequest r₂) := by
  constructor
  · intro h
    rw [cacheKeyOfRequest, cacheKeyOfRequest, h]
  · intro hne hkey
    apply hne
    have hdata := congrArg String.data hkey
    change "ai:summary:".data ++ hexChars (sha256 r₁.text) =
      "ai:summary:".data ++ hexChars (sha256 r₂.text) at hdata
    exact hexChars_injOn _ _ (sha256_lt _) (sha256_lt _) (List.append_cancel_left hdata)

/-- C3 witness: concrete requests — same text with different payment
metadata share the key; texts `"a"` and `"b"` get different keys. -/
theorem C3_cache_key_content_addressed_witness :
    cacheKeyOfRequest ⟨[97], [1], [2], [3]⟩ = cacheKeyOfRequest ⟨[97], [9], [8], [7]⟩ ∧
    cacheKeyOfRequest ⟨[97], [1], [2], [3]⟩ ≠ cacheKeyOfRequest ⟨[98], [1], [2], [3]⟩ :=
  ⟨(C3_cache_key_content_addressed ⟨[97], [1], [2], [3]⟩ ⟨[97], [9], [8], [7]⟩).1 rfl,
   (C3_cache_key_content_addressed ⟨[97], [1], [2], [3]⟩ ⟨[98], [1], [2], [3]⟩).2 (by decide)⟩

/-- C4: a request missing the signature or nonce header terminates with 402
and a freshly created `PaymentContext`, and the challenge nonce differs
across any two distinct generator draws below `2^128`. -/
theorem C4_missing_payment_fresh_challenge (env : Env) (signature nonce : List Nat)
    (d₁ d₂ : Nat) (hmiss : signature = [] ∨ nonce = []) (hne : d₁ ≠ d₂)
    (h₁ : d₁ < 256 ^ 16) (h₂ : d₂ < 256 ^ 16) :
    ∃ b₁ b₂ : PaymentRequiredBody,
      paymentCheck env signature nonce d₁ = some (402, b₁) ∧
      paymentCheck env signature nonce d₂ = some (402, b₂) ∧
      b₁.error = "Payment Required" ∧
      b₁.paymentContext = createPaymentContext env d₁ ∧
      b₁.paymentContext.nonce ≠ b₂.paymentContext.nonce := by
  refine ⟨⟨"Payment Required", "Please sign the payment context", createPaymentContext env d₁⟩,
    ⟨"Payment Required", "Please sign the payment context", createPaymentContext env d₂⟩,
    ?_, ?_, rfl, rfl, ?_⟩
  · rw [paymentCheck, if_pos hmiss]
  · rw [paymentCheck, if_pos hmiss]
  · intro hcontra
    apply hne
    have hval := congrArg beVal hcontra
    rwa [createPaymentContext, createPaymentContext, uuidNew, uuidNew,
      beVal_beBytes _ _ h₁, beVal_beBytes _ _ h₂] at hval

/-- C4 witness at a concrete missing-signature request and draws 0 and 1. -/
theorem C4_missing_payment_fresh_challenge_witness :
    ∃ b₁ b₂ : PaymentRequiredBody,
      paymentCheck (fun _ => "") [] [7] 0 = some (402, b₁) ∧
      paymentCheck (fun _ => "") [] [7] 1 = some (402, b₂) ∧
      b₁.error = "Payment Required" ∧
      b₁.paymentContext = createPaymentContext (fun _ => "") 0 ∧
      b₁.paymentContext.nonce ≠ b₂.paymentContext.nonce :=
  C4_missing_payment_fresh_challenge (fun _ => "") [] [7] 0 1 (Or.inl rfl)
    (by norm_num) (by norm_num) (by norm_num)

/-- C5: when receipt generation fails on a success path, the response is
still a 200 carrying the result with the receipt omitted and no receipt
header; the failure detail never influences the response. -/
theorem C5_receipt_failure_not_surfaced (summary : String) (e : String) :
    receiptIssueStage summary (.error e) = ⟨200, summary, none, false⟩ ∧
    (receiptIssueStage summary (.error e)).status = 200 ∧
    (receiptIssueStage summary (.error e)).result = summary ∧
    (receiptIssueStage summary (.error e)).receipt = none ∧
    (∀ e', receiptIssueStage summary (.error e) = receiptIssueStage summary (.error e')) :=
  ⟨rfl, rfl, rfl, rfl, fun _ => rfl⟩

/-- C6: the claim says the backend-error path writes exactly one response,
504 on timeout and 500 otherwise. Evaluating the code at a timed-out backend
call shows it writes two responses — an unconditional 500 first (line 282),
then the 504 — so the status actually sent is 500, and the generic failure
path also writes twice. -/
theorem C6_backend_error_double_write :
    backendErrorWrites .timeout =
      [(500, "context deadline exceeded"), (504, "Gateway Timeout")] ∧
    effectiveStatus (backendErrorWrites .timeout) = 500 ∧
    (backendErrorWrites .timeout).length = 2 ∧
    effectiveStatus (backendErrorWrites (.failure "boom")) = 500 ∧
    (backendErrorWrites (.failure "boom")).length = 2 ∧
    effectiveStatus (backendErrorWrites (.ok "summary")) = 200 :=
  ⟨rfl, rfl, rfl, rfl, rfl, rfl⟩

/-- C7: the rate-limit key is `"nonce:"` plus the 32-hex-character (128-bit)
truncation of the SHA-256 digest of the nonce when both payment headers are
present, and `"ip:"` plus the caller's network address otherwise. -/
theorem C7_rate_limit_key_derivation (signature nonce : List Nat) (ip : String) :
    (signature ≠ [] → nonce ≠ [] →
      getRateLimitKey signature nonce ip =
        String.mk ("nonce:".data ++ hexChars ((sha256 nonce).take 16)) ∧
      (getRateLimitKey signature nonce ip).data.length = 6 + 32) ∧
    (signature = [] ∨ nonce = [] →
      getRateLimitKey signature nonce ip = String.mk ("ip:".data ++ ip.data)) := by
  constructor
  · intro hs hn
    have hcond : signature ≠ [] ∧ nonce ≠ [] := ⟨hs, hn⟩
    constructor
    · rw [getRateLimitKey, if_pos hcond, show (32 : Nat) = 2 * 16 from rfl, hexChars_take]
    · rw [getRateLimitKey, if_pos hcond]
      have hlen : ((hexChars (sha256 nonce)).take 32).length = 32 := by
        rw [List.length_take, hexChars_length, sha256_length]
        omega
      change ("nonce:".data ++ (hexChars (sha256 nonce)).take 32).length = 6 + 32
      rw [List.length_append, hlen]
      rfl
  · intro hmiss
    rw [getRateLimitKey, if_neg]
    rcases hmiss with h | h <;> simp [h]

/-- C7 witness: both branches at concrete headers. -/
theorem C7_rate_limit_key_derivation_witness :
    getRateLimitKey [1] [2] "203.0.113.9" =
      String.mk ("nonce:".data ++ hexChars ((sha256 [2]).take 16)) ∧
    getRateLimitKey [] [2] "203.0.113.9" = String.mk ("ip:".data ++ "203.0.113.9".data) :=
  ⟨((C7_rate_limit_key_derivation [1] [2] "203.0.113.9").1 (by decide) (by decide)).1,
   (C7_rate_limit_key_derivation [] [2] "203.0.113.9").2 (Or.inl rfl)⟩

/-- C8: a receipt stored at time `t` with TTL `T` is retrievable by its id
with 200, its signature, the server public key and status `"valid"` while
`now < t + T`; once `t + T ≤ now` — or for an id never stored — the lookup
answers 404 `"Receipt not found"`. -/
theorem C8_receipt_ttl_lookup (sr : SignedReceipt) (id : String) (t T now : Nat) :
    (now < t + T → handleGetReceipt [(id, sr, t)] T now id =
      .found 200 sr.receipt sr.signature sr.server_public_key "valid") ∧
    (t + T ≤ now → handleGetReceipt [(id, sr, t)] T now id =
      .notFound 404 "Receipt not found" "Receipt may have expired or never existed") ∧
    (∀ id', handleGetReceipt [] T now id' =
      .notFound 404 "Receipt not found" "Receipt may have expired or never existed") := by
  refine ⟨?_, ?_, fun _ => rfl⟩
  · intro hlt
    simp [handleGetReceipt, lookupReceipt, List.find?, hlt]
  · intro hge
    simp [handleGetReceipt, lookupReceipt, List.find?, Nat.not_lt.mpr hge]

/-- C8 witness: store at time 0 with TTL 10; lookup at 5 finds it, at 10 it
is expired, and an unknown id is never found. -/
theorem C8_receipt_ttl_lookup_witness :
    handleGetReceipt [("rcpt_w", wStoredReceipt, 0)] 10 5 "rcpt_w" =
      .found 200 wStoredReceipt.receipt wStoredReceipt.signature
        wStoredReceipt.server_public_key "valid" ∧
    handleGetReceipt [("rcpt_w", wStoredReceipt, 0)] 10 10 "rcpt_w" =
      .notFound 404 "Receipt not found" "Receipt may have expired or never existed" ∧
    handleGetReceipt [] 10 5 "rcpt_zzz" =
      .notFound 404 "Receipt not found" "Receipt may have expired or never existed" :=
  ⟨(C8_receipt_ttl_lookup wStoredReceipt "rcpt_w" 0 10 5).1 (by norm_num),
   (C8_receipt_ttl_lookup wStoredReceipt "rcpt_w" 0 10 10).2.1 (by norm_num),
   (C8_receipt_ttl_lookup wStoredReceipt "rcpt_w" 0 10 5).2.2 "rcpt_zzz"⟩

/-- C9 counterexample: with rate limiting enabled and the limiter denying
this request's key, the health endpoint answers 429, not 200. -/
theorem C9_health_rate_limited_429 :
    (healthzPipeline true false).1 = .rateLimited 429 "Too Many Requests" ∧
    (healthzPipeline true false).1 ≠ .health 200 "ok" "gateway" :=
  ⟨rfl, by decide⟩

/-- C9 (amended): the health endpoint bypasses payment checks and answers
200 with status field `"ok"` whenever rate limiting is disabled or the
limiter admits the request; but when `RATE_LIMIT_ENABLED` is set the health
route passes through the rate limiter like any other route, and a denied key
receives 429. -/
theorem C9_health_bypasses_payment_not_rate_limit (enabled allow : Bool) :
    (enabled = false → healthzPipeline enabled allow = (.health 200 "ok" "gateway", [])) ∧
    (allow = true → healthzPipeline enabled allow = (.health 200 "ok" "gateway", [])) ∧
    GatewayEv.verifierCall ∉ (healthzPipeline enabled allow).2 ∧
    (enabled = true → allow = false →
      healthzPipeline enabled allow = (.rateLimited 429 "Too Many Requests", [])) := by
  refine ⟨?_, ?_, ?_, ?_⟩
  · intro h; subst h; cases allow <;> rfl
  · intro h; subst h; cases enabled <;> rfl
  · cases enabled <;> cases allow <;> simp [healthzPipeline]
  · intro h1 h2; subst h1; subst h2; rfl

/-- C9 witness: the three reachable outcomes at concrete flags. -/
theorem C9_health_bypasses_payment_not_rate_limit_witness :
    healthzPipeline false true = (.health 200 "ok" "gateway", []) ∧
    healthzPipeline true true = (.health 200 "ok" "gateway", []) ∧
    healthzPipeline true false = (.rateLimited 429 "Too Many Requests", []) :=
  ⟨(C9_health_bypasses_payment_not_rate_limit false true).1 rfl,
   (C9_health_bypasses_payment_not_rate_limit true true).2.1 rfl,
   (C9_health_bypasses_payment_not_rate_limit true false).2.2.2 rfl rfl⟩

/-- C10 counterexample: at the text `"abc"` the two `getCacheKey` drafts
disagree (27- versus 75-character keys), so they are not extensionally
equal. -/
theorem C10_draft_keys_differ_at_abc :
    Part000.getCacheKey [97, 98, 99] ≠ CacheGo.getCacheKey [97, 98, 99] := by
  decide

/-- C10 (amended): the two `getCacheKey` definitions are *not* extensionally
equal; for every text the `part_000` key is exactly the 27-character strict
prefix of the `cache.go` key (the shared `"ai:summary:"` plus the first 16 of
the 64 hex digits), so the two drafts never address the same store entry. -/
theorem C10_key_is_proper_truncation (text : List Nat) :
    (Part000.getCacheKey text).data = ((CacheGo.getCacheKey text).data).take 27 ∧
    Part000.getCacheKey text ≠ CacheGo.getCacheKey text := by
  have h11 : "ai:summary:".data.length = 11 := rfl
  constructor
  · change "ai:summary:".data ++ (hexChars (sha256 text)).take 16 =
      ("ai:summary:".data ++ hexChars (sha256 text)).take 27
    have hp : ("ai:summary:".data).take 27 = "ai:summary:".data :=
      List.take_of_length_le (by rw [h11]; norm_num)
    rw [List.take_append_eq_append_take, hp, h11]
  · intro hcontra
    have hlen := congrArg (fun s => s.data.length) hcontra
    change ("ai:summary:".data ++ (hexChars (sha256 text)).take 16).length =
      ("ai:summary:".data ++ hexChars (sha256 text)).length at hlen
    rw [List.length_append, List.length_append, List.length_take, hexChars_length,
      sha256_length, h11] at hlen
    norm_num at hlen

/-- Verification only inspects the receipt through its digest. -/
theorem verifyReceipt_congr_digest (r₁ r₂ : Receipt) (s : List Nat) (p : Scalar)
    (h : receiptDigest r₁ = receiptDigest r₂) :
    verifyReceipt ⟨r₁, s, p⟩ = verifyReceipt ⟨r₂, s, p⟩ := by
  rw [verifyReceipt_def, verifyReceipt_def, h]

/-- C2 counterexample: "mutating any single field of the receipt after
signing makes verification fail" is not universally true of the code: the
digest ranges over finitely many values while receipts vary over infinitely
many id strings, so by pigeonhole some signed receipt admits an id mutation
that leaves the digest unchanged, and the original signature then still
verifies for the mutated receipt. -/
theorem C2_single_field_mutation_can_verify :
    ¬ (∀ (sk k : Scalar) (r : Receipt) (sr : SignedReceipt),
        generateSignedReceipt sk k r = some sr →
        ∀ id', id' ≠ r.id →
          verifyReceipt ⟨{ r with id := id' }, sr.signature, sr.server_public_key⟩ = false) := by
  intro hclaim
  obtain ⟨n, m, hnm, hfe⟩ := Finite.exists_ne_map_eq_of_infinite
    (fun j : ℕ => receiptDigest { wReceiptA with id := String.mk (List.replicate j 'x') })
  have hgen : generateSignedReceipt 3 1
      { wReceiptA with id := String.mk (List.replicate n 'x') } =
      some ⟨{ wReceiptA with id := String.mk (List.replicate n 'x') },
            sigEncode ⟨1, receiptDigest
              { wReceiptA with id := String.mk (List.replicate n 'x') } + 3, 0⟩,
            pubKeyOf 3⟩ := by
    rw [generateSignedReceipt, ecSign_one]
  have hid : String.mk (List.replicate m 'x') ≠
      ({ wReceiptA with id := String.mk (List.replicate n 'x') } : Receipt).id := by
    intro hcontra
    have hlen : (List.replicate m 'x').length = (List.replicate n 'x').length :=
      congrArg (fun s => s.data.length) hcontra
    simp at hlen
    exact hnm hlen.symm
  have hver := hclaim 3 1 _ _ hgen (String.mk (List.replicate m 'x')) hid
  have hfalse : verifyReceipt
      ⟨{ wReceiptA with id := String.mk (List.replicate m 'x') },
       sigEncode ⟨1, receiptDigest
         { wReceiptA with id := String.mk (List.replicate n 'x') } + 3, 0⟩,
       pubKeyOf 3⟩ = false := hver
  have hdig : receiptDigest { wReceiptA with id := String.mk (List.replicate m 'x') } =
      receiptDigest { wReceiptA with id := String.mk (List.replicate n 'x') } := hfe.symm
  have htrue : verifyReceipt
      ⟨{ wReceiptA with id := String.mk (List.replicate m 'x') },
       sigEncode ⟨1, receiptDigest
         { wReceiptA with id := String.mk (List.replicate n 'x') } + 3, 0⟩,
       pubKeyOf 3⟩ = true := by
    rw [verifyReceipt_congr_digest _ _ _ _ hdig]
    exact verifyReceipt_of_generate 3 1 _ _ hgen
  cases htrue.symm.trans hfalse

/-- C2 (amended): serializing the same receipt value twice yields
byte-identical output; every issued signature is the fixed-width 65-byte
`R ‖ S ‖ V` encoding whose recovery identifier is 0 or 1; verification of an
issued signed receipt recovers exactly the embedded server public key (so it
returns true); and mutating the receipt after signing makes verification
fail whenever the mutation changes the digest of the serialized receipt —
digest collisions, which exist by pigeonhole but are never exhibited, are
the only exception. -/
theorem C2_receipt_determinism_and_integrity (sk k : Scalar) (r r' : Receipt)
    (sr : SignedReceipt) (hgen : generateSignedReceipt sk k r = some sr) :
    serializeReceipt r = serializeReceipt r ∧
    (∃ rs ss v, sr.signature = beBytes 32 rs ++ beBytes 32 ss ++ [v] ∧ v < 2) ∧
    sr.signature.length = 65 ∧
    verifyReceipt sr = true ∧
    (receiptDigest r' ≠ receiptDigest r →
      verifyReceipt ⟨r', sr.signature, sr.server_public_key⟩ = false) := by
  obtain ⟨sig, hv, hsr⟩ := generateSignedReceipt_shape sk k r sr hgen
  refine ⟨rfl, ?_, ?_, verifyReceipt_of_generate sk k r sr hgen,
    fun hz => verifyReceipt_mutated_false sk k r r' sr hgen hz⟩
  · exact ⟨sig.r.val, sig.s.val, sig.v, by rw [hsr]; rfl, by omega⟩
  · rw [hsr]
    exact sigEncode_length sig

/-- C2 witness: a concrete receipt signed with `sk = 3`, `k = 5`: the
signature is 65 bytes, verification succeeds, and verification of the
id-mutated sibling (whose digest differs) fails. -/
theorem C2_receipt_determinism_and_integrity_witness :
    ∃ sr, generateSignedReceipt 3 5 wReceiptA = some sr ∧
      sr.signature.length = 65 ∧ verifyReceipt sr = true ∧
      verifyReceipt ⟨wReceiptB, sr.signature, sr.server_public_key⟩ = false := by
  cases hgen : generateSignedReceipt 3 5 wReceiptA with
  | none => exact absurd hgen (by decide)
  | some sr =>
    have h := C2_receipt_determinism_and_integrity 3 5 wReceiptA wReceiptB sr hgen
    exact ⟨sr, rfl, h.2.2.1, h.2.2.2.1, h.2.2.2.2 (by decide)⟩
